import Mathlib

/-!
Shallow embedding of `src/algorithms/abstract_agent.py` (class `AbstractAgent`):
the generic evaluation loop `test`, the shared persistence routine
`save_params`, and the constructor's extraction of space dimensions/bounds.

Side effects are made observable as a trace of events (`Ev`); fallible external
calls (environment reset/step/render, action selection) are modelled with
`Except`; the unbounded `while not done` loop is modelled with fuel, where fuel
exhaustion is reported as a distinct `diverge` outcome (never confused with
normal completion).  Rewards are rationals; the Python `"%d"` formatting of the
score truncates toward zero, modelled by `ratTrunc`.
-/

/-- Events observable during a run of `AbstractAgent.test`.  `reset i`,
`render i` record the environment call made during episode `i`; `printEp i p`
records the printed summary line for episode `i` with `%d`-formatted score `p`. -/
inductive Ev where
  | reset (i : Nat)
  | render (i : Nat)
  | step
  | printEp (i : Nat) (printed : Int)
  | close
deriving DecidableEq, Repr

/-- The configuration bundle `args`: episode count, render flag,
render-after threshold (an `int` in Python, so `Int` here). -/
structure Args where
  episode_num : Nat
  render : Bool
  render_after : Int
deriving DecidableEq, Repr

/-- The external collaborators of the evaluation loop: the environment's
`reset`/`render`, the agent's `select_action` and `step` (which delegates to the
environment's step).  `S` observations, `A` actions, `E` hidden environment
state, `ε` errors (exceptions).  `step` returns (next state, reward, done). -/
structure Model (S A E ε : Type) where
  reset : E → Except ε (S × E)
  render : E → Except ε E
  selectAction : S → Except ε A
  step : A → E → Except ε (S × ℚ × Bool × E)

/-- Truncation of a rational toward zero: the value printed by Python's
`"%d" % score` when `score` is a float. -/
def ratTrunc (q : ℚ) : Int :=
  if q.num < 0 then -(((-q.num).toNat / q.den : Nat) : Int)
  else ((q.num.toNat / q.den : Nat) : Int)

/-- The guard of `if self.args.render and i_episode >= self.args.render_after`. -/
def renderCond (args : Args) (i : Nat) : Bool :=
  args.render && decide ((i : Int) ≥ args.render_after)

/-- The render events emitted by one iteration of the while body. -/
def renderEvs (args : Args) (i : Nat) : List Ev :=
  if renderCond args i then [Ev.render i] else []

/-- Outcome of the `while not done` loop of one episode. -/
inductive LoopRes (ε E : Type) where
  | ok (score : ℚ) (env : E)
  | fail (e : ε)
  | diverge
deriving DecidableEq

/-- Outcome of a whole `test()` call. -/
inductive TestRes (ε : Type) where
  | ok
  | fail (e : ε)
  | diverge
deriving DecidableEq

/-- One episode's `while not done` loop (body of `AbstractAgent.test`):
optionally render, select an action, step, accumulate reward, advance state;
exit when `done`.  Structurally recursive on `fuel`; a run that does not reach
`done` within `fuel` iterations is reported as `diverge`.  Returns the events
emitted together with the loop's outcome. -/
def runWhile (M : Model S A E ε) (args : Args) (i : Nat) :
    Nat → S → E → ℚ → List Ev × LoopRes ε E
  | 0, _, _, _ => ([], LoopRes.diverge)
  | fuel+1, state, env, score =>
    match (if renderCond args i then M.render env else Except.ok env) with
    | Except.error e => (renderEvs args i, LoopRes.fail e)
    | Except.ok env1 =>
      match M.selectAction state with
      | Except.error e => (renderEvs args i, LoopRes.fail e)
      | Except.ok action =>
        match M.step action env1 with
        | Except.error e => (renderEvs args i ++ [Ev.step], LoopRes.fail e)
        | Except.ok (next, reward, done, env2) =>
          if done then (renderEvs args i ++ [Ev.step], LoopRes.ok (score + reward) env2)
          else
            let rest := runWhile M args i fuel next env2 (score + reward)
            (renderEvs args i ++ Ev.step :: rest.1, rest.2)

/-- The episode loop of `AbstractAgent.test`, running `n` remaining episodes
starting at episode index `i`: reset, run the while loop with `score = 0`,
print the summary line (`%d`-truncated score), continue; after the last
episode, close the environment.  A failure (exception) anywhere propagates
immediately and skips the close. -/
def runEpisodes (M : Model S A E ε) (args : Args) (fuel : Nat) :
    Nat → Nat → E → List Ev × TestRes ε
  | 0, _, _ => ([Ev.close], TestRes.ok)
  | n+1, i, env =>
    match M.reset env with
    | Except.error e => ([Ev.reset i], TestRes.fail e)
    | Except.ok (state, env1) =>
      match runWhile M args i fuel state env1 0 with
      | (evs, LoopRes.fail e) => (Ev.reset i :: evs, TestRes.fail e)
      | (evs, LoopRes.diverge) => (Ev.reset i :: evs, TestRes.diverge)
      | (evs, LoopRes.ok score env2) =>
        let rest := runEpisodes M args fuel n (i+1) env2
        (Ev.reset i :: evs ++ Ev.printEp i (ratTrunc score) :: rest.1, rest.2)

/-- `AbstractAgent.test`: `episode_num` episodes starting from episode index 0,
then close the environment. -/
def testAgent (M : Model S A E ε) (args : Args) (fuel : Nat) (env0 : E) :
    List Ev × TestRes ε :=
  runEpisodes M args fuel args.episode_num 0 env0

/-!
`AbstractAgent.save_params`.  The file system is modelled as the existence flag
of the local `./save` directory plus an association of paths to written blobs;
the ambient git context is `Option String` (the current commit sha when a
repository is discoverable, `none` otherwise); `mkdirOk` says whether an
`os.mkdir("./save")` attempt would succeed.  The function returns the resulting
file system together with either the saved path (also the content of the
printed `[INFO] Saved ...` line) or the raised error.
-/

/-- File-system state: whether `./save` exists, and the written files
(later writes to a path shadow earlier ones). -/
structure FS (P : Type) where
  saveDirExists : Bool
  files : List (String × P)
deriving DecidableEq, Repr

/-- Errors `save_params` can raise: `os.mkdir` failing (an `OSError`), or
`git.Repo(search_parent_directories=True)` finding no repository. -/
inductive SaveErr where
  | mkdirFailed
  | noRepo
deriving DecidableEq, Repr

/-- Python `sha[:7]`. -/
def shortSha (sha : String) : String := String.mk (sha.data.take 7)

/-- The path `"./save/" + name + "_" + sha[:7] + "_ep_" + str(n_episode) + ".pt"`
(`os.path.join` of a single component is the identity). -/
def savePath (name : String) (sha : String) (n_episode : Int) : String :=
  "./save/" ++ name ++ "_" ++ shortSha sha ++ "_ep_" ++ toString n_episode ++ ".pt"

/-- Writing a file: replaces any previous blob at the same path. -/
def writeFile (files : List (String × P)) (path : String) (blob : P) :
    List (String × P) :=
  (path, blob) :: files.filter (fun f => f.1 != path)

/-- `AbstractAgent.save_params(name, params, n_episode)`: create `./save` if
absent (aborting if the creation fails), look up the enclosing git repository's
head commit (aborting if none is discoverable), then write `params` to
`savePath name sha n_episode` and report that path. -/
def save_params (git : Option String) (mkdirOk : Bool) (fs : FS P)
    (name : String) (params : P) (n_episode : Int) :
    FS P × Except SaveErr String :=
  if fs.saveDirExists = false ∧ mkdirOk = false then
    (fs, Except.error SaveErr.mkdirFailed)
  else
    let fs1 : FS P := { fs with saveDirExists := true }
    match git with
    | none => (fs1, Except.error SaveErr.noRepo)
    | some sha =>
      let path := savePath name sha n_episode
      ({ fs1 with files := writeFile fs1.files path params }, Except.ok path)

/-!
`AbstractAgent.__init__`: extraction of dimensions and action bounds from the
environment's declared spaces.  A gym `Box` space has a shape tuple and
per-dimension `low`/`high` bound vectors.
-/

/-- A gym space as used by the constructor: shape tuple and bound vectors. -/
structure GymSpace where
  shape : List Nat
  low : List ℚ
  high : List ℚ
deriving DecidableEq, Repr

/-- The two spaces the constructor reads from the environment. -/
structure EnvSpaces where
  observation_space : GymSpace
  action_space : GymSpace
deriving DecidableEq, Repr

/-- The four numeric attributes `__init__` stores on the agent. -/
structure AgentAttrs where
  state_dim : Nat
  action_dim : Nat
  action_low : ℚ
  action_high : ℚ
deriving DecidableEq, Repr

/-- `__init__`: `state_dim = observation_space.shape[0]`,
`action_dim = action_space.shape[0]`, `action_low = float(action_space.low[0])`,
`action_high = float(action_space.high[0])`; indexing an empty tuple/vector
raises (`none`). -/
def initAttrs (env : EnvSpaces) : Option AgentAttrs :=
  match env.observation_space.shape, env.action_space.shape,
        env.action_space.low, env.action_space.high with
  | sd :: _, ad :: _, lo :: _, hi :: _ =>
    some { state_dim := sd, action_dim := ad, action_low := lo, action_high := hi }
  | _, _, _, _ => none

/-! Episode markers: the subsequence of resets and printed summary lines. -/

/-- The two per-episode milestones of the loop: the environment reset opening
episode `i` and the printed summary line closing it. -/
inductive Mk where
  | reset (i : Nat)
  | printed (i : Nat)
deriving DecidableEq, Repr

/-- Project an event to its episode milestone, if any. -/
def markerOf : Ev → Option Mk
  | Ev.reset i => some (Mk.reset i)
  | Ev.printEp i _ => some (Mk.printed i)
  | _ => none

/-- The milestone subsequence of a trace. -/
def episodeMarkers (tr : List Ev) : List Mk := tr.filterMap markerOf

/-- A deterministic stub environment/agent pair: reset succeeds, rendering and
action selection succeed, and every step returns `done = true` with the fixed
scalar reward `r`. -/
def stubModel (r : ℚ) : Model Unit Unit Unit Unit where
  reset := fun _ => Except.ok ((), ())
  render := fun _ => Except.ok ()
  selectAction := fun _ => Except.ok ()
  step := fun _ _ => Except.ok ((), r, true, ())

/-- A stub whose environment step raises an exception. -/
def stubFailStep : Model Unit Unit Unit Unit where
  reset := fun _ => Except.ok ((), ())
  render := fun _ => Except.ok ()
  selectAction := fun _ => Except.ok ()
  step := fun _ _ => Except.error ()

/-- A 40-character hexadecimal commit identifier, as git head commits have. -/
def shaExample : String := "0123456789abcdef0123456789abcdef01234567"

/-- The rational 1/2, given as an explicit normal form (numerator 1,
denominator 2) so that it evaluates structurally. -/
def halfExample : ℚ := ⟨1, 2, by norm_num, Nat.coprime_one_left 2⟩

/-! Unfolding equations for `runWhile` and `runEpisodes`, one per branch. -/

theorem runWhile_zero (M : Model S A E ε) (args : Args) (i : Nat)
    (state : S) (env : E) (score : ℚ) :
    runWhile M args i 0 state env score = ([], LoopRes.diverge) := rfl

theorem runWhile_renderError {M : Model S A E ε} {args : Args} {i k : Nat}
    {state : S} {env : E} {score : ℚ} {e1 : ε}
    (h : (if renderCond args i then M.render env else Except.ok env) = Except.error e1) :
    runWhile M args i (k+1) state env score = (renderEvs args i, LoopRes.fail e1) := by
  rw [runWhile, h]

theorem runWhile_selectError {M : Model S A E ε} {args : Args} {i k : Nat}
    {state : S} {env env1 : E} {score : ℚ} {e1 : ε}
    (h : (if renderCond args i then M.render env else Except.ok env) = Except.ok env1)
    (hs : M.selectAction state = Except.error e1) :
    runWhile M args i (k+1) state env score = (renderEvs args i, LoopRes.fail e1) := by
  rw [runWhile, h, hs]

theorem runWhile_stepError {M : Model S A E ε} {args : Args} {i k : Nat}
    {state : S} {env env1 : E} {score : ℚ} {action : A} {e1 : ε}
    (h : (if renderCond args i then M.render env else Except.ok env) = Except.ok env1)
    (hs : M.selectAction state = Except.ok action)
    (hst : M.step action env1 = Except.error e1) :
    runWhile M args i (k+1) state env score =
      (renderEvs args i ++ [Ev.step], LoopRes.fail e1) := by
  rw [runWhile, h]; simp [hs, hst]

theorem runWhile_stepDone {M : Model S A E ε} {args : Args} {i k : Nat}
    {state next : S} {env env1 env2 : E} {score reward : ℚ} {action : A}
    (h : (if renderCond args i then M.render env else Except.ok env) = Except.ok env1)
    (hs : M.selectAction state = Except.ok action)
    (hst : M.step action env1 = Except.ok (next, reward, true, env2)) :
    runWhile M args i (k+1) state env score =
      (renderEvs args i ++ [Ev.step], LoopRes.ok (score + reward) env2) := by
  rw [runWhile, h]; simp [hs, hst]

theorem runWhile_stepCont {M : Model S A E ε} {args : Args} {i k : Nat}
    {state next : S} {env env1 env2 : E} {score reward : ℚ} {action : A}
    (h : (if renderCond args i then M.render env else Except.ok env) = Except.ok env1)
    (hs : M.selectAction state = Except.ok action)
    (hst : M.step action env1 = Except.ok (next, reward, false, env2)) :
    runWhile M args i (k+1) state env score =
      (renderEvs args i ++ Ev.step :: (runWhile M args i k next env2 (score + reward)).1,
       (runWhile M args i k next env2 (score + reward)).2) := by
  rw [runWhile, h]; simp [hs, hst]

theorem runEpisodes_zero (M : Model S A E ε) (args : Args) (fuel i : Nat) (env : E) :
    runEpisodes M args fuel 0 i env = ([Ev.close], TestRes.ok) := rfl

theorem runEpisodes_resetError {M : Model S A E ε} {args : Args} {fuel n i : Nat}
    {env : E} {e1 : ε} (h : M.reset env = Except.error e1) :
    runEpisodes M args fuel (n+1) i env = ([Ev.reset i], TestRes.fail e1) := by
  rw [runEpisodes, h]

theorem runEpisodes_whileFail {M : Model S A E ε} {args : Args} {fuel n i : Nat}
    {env env1 : E} {state : S} {evs : List Ev} {e1 : ε}
    (h : M.reset env = Except.ok (state, env1))
    (hw : runWhile M args i fuel state env1 0 = (evs, LoopRes.fail e1)) :
    runEpisodes M args fuel (n+1) i env = (Ev.reset i :: evs, TestRes.fail e1) := by
  rw [runEpisodes, h]; simp [hw]

theorem runEpisodes_whileDiverge {M : Model S A E ε} {args : Args} {fuel n i : Nat}
    {env env1 : E} {state : S} {evs : List Ev}
    (h : M.reset env = Except.ok (state, env1))
    (hw : runWhile M args i fuel state env1 0 = (evs, LoopRes.diverge)) :
    runEpisodes M args fuel (n+1) i env = (Ev.reset i :: evs, TestRes.diverge) := by
  rw [runEpisodes, h]; simp [hw]

theorem runEpisodes_whileOk {M : Model S A E ε} {args : Args} {fuel n i : Nat}
    {env env1 env2 : E} {state : S} {evs : List Ev} {score : ℚ}
    (h : M.reset env = Except.ok (state, env1))
    (hw : runWhile M args i fuel state env1 0 = (evs, LoopRes.ok score env2)) :
    runEpisodes M args fuel (n+1) i env =
      (Ev.reset i :: evs ++ Ev.printEp i (ratTrunc score) ::
        (runEpisodes M args fuel n (i+1) env2).1,
       (runEpisodes M args fuel n (i+1) env2).2) := by
  rw [runEpisodes, h]; simp [hw]

/-! Structural lemmas about the while loop's event trace. -/

theorem mem_renderEvs {args : Args} {i : Nat} {e : Ev} :
    e ∈ renderEvs args i ↔ renderCond args i = true ∧ e = Ev.render i := by
  unfold renderEvs
  split <;> simp_all

theorem runWhile_events (M : Model S A E ε) (args : Args) (i : Nat) :
    ∀ (fuel : Nat) (state : S) (env : E) (score : ℚ) (e : Ev),
      e ∈ (runWhile M args i fuel state env score).1 →
        e = Ev.step ∨ (renderCond args i = true ∧ e = Ev.render i) := by
  intro fuel
  induction fuel with
  | zero =>
    intro state env score e he
    rw [runWhile_zero] at he
    simp at he
  | succ k ih =>
    intro state env score e he
    rcases hre : (if renderCond args i then M.render env else Except.ok env) with e1 | env1
    · rw [runWhile_renderError hre] at he
      exact Or.inr (mem_renderEvs.mp he)
    · rcases hs : M.selectAction state with e1 | action
      · rw [runWhile_selectError hre hs] at he
        exact Or.inr (mem_renderEvs.mp he)
      · rcases hst : M.step action env1 with e1 | ⟨next, reward, done, env2⟩
        · rw [runWhile_stepError hre hs hst] at he
          rcases List.mem_append.mp he with he | he
          · exact Or.inr (mem_renderEvs.mp he)
          · exact Or.inl (List.mem_singleton.mp he)
        · cases done
          · rw [runWhile_stepCont hre hs hst] at he
            rcases List.mem_append.mp he with he | he
            · exact Or.inr (mem_renderEvs.mp he)
            · rcases List.mem_cons.mp he with he | he
              · exact Or.inl he
              · exact ih next env2 (score + reward) e he
          · rw [runWhile_stepDone hre hs hst] at he
            rcases List.mem_append.mp he with he | he
            · exact Or.inr (mem_renderEvs.mp he)
            · exact Or.inl (List.mem_singleton.mp he)

theorem runWhile_render_mem (M : Model S A E ε) (args : Args) (i k : Nat)
    (state : S) (env : E) (score : ℚ) (hc : renderCond args i = true) :
    Ev.render i ∈ (runWhile M args i (k+1) state env score).1 := by
  have hmem : Ev.render i ∈ renderEvs args i := mem_renderEvs.mpr ⟨hc, rfl⟩
  rcases hre : (if renderCond args i then M.render env else Except.ok env) with e1 | env1
  · rw [runWhile_renderError hre]; exact hmem
  · rcases hs : M.selectAction state with e1 | action
    · rw [runWhile_selectError hre hs]; exact hmem
    · rcases hst : M.step action env1 with e1 | ⟨next, reward, done, env2⟩
      · rw [runWhile_stepError hre hs hst]
        exact List.mem_append_left _ hmem
      · cases done
        · rw [runWhile_stepCont hre hs hst]
          exact List.mem_append_left _ hmem
        · rw [runWhile_stepDone hre hs hst]
          exact List.mem_append_left _ hmem


theorem runWhile_markers (M : Model S A E ε) (args : Args) (i fuel : Nat)
    (state : S) (env : E) (score : ℚ) :
    episodeMarkers (runWhile M args i fuel state env score).1 = [] := by
  rw [episodeMarkers, List.filterMap_eq_nil_iff]
  intro e he
  rcases runWhile_events M args i fuel state env score e he with h | ⟨_, h⟩ <;>
    subst h <;> rfl

theorem runWhile_no_close (M : Model S A E ε) (args : Args) (i fuel : Nat)
    (state : S) (env : E) (score : ℚ) :
    Ev.close ∉ (runWhile M args i fuel state env score).1 := by
  intro hmem
  rcases runWhile_events M args i fuel state env score Ev.close hmem with h | ⟨_, h⟩ <;>
    exact Ev.noConfusion h

theorem runWhile_fuel_pos_of_ok (M : Model S A E ε) (args : Args) (i fuel : Nat)
    (state : S) (env : E) (score sc : ℚ) (env2 : E)
    (h : runWhile M args i fuel state env score = (evs, LoopRes.ok sc env2)) :
    ∃ k, fuel = k + 1 := by
  cases fuel with
  | zero =>
    rw [runWhile_zero] at h
    exact absurd (congrArg Prod.snd h) (by simp)
  | succ k => exact ⟨k, rfl⟩

/-! Episode-level structure of the evaluation loop. -/

theorem runEpisodes_markers (M : Model S A E ε) (args : Args) (fuel : Nat) :
    ∀ (n i : Nat) (env : E),
      (runEpisodes M args fuel n i env).2 = TestRes.ok →
      episodeMarkers (runEpisodes M args fuel n i env).1 =
        (List.range' i n).flatMap (fun j => [Mk.reset j, Mk.printed j]) := by
  intro n
  induction n with
  | zero =>
    intro i env _
    rw [runEpisodes_zero]
    rfl
  | succ m ih =>
    intro i env hok
    rcases hr : M.reset env with e1 | ⟨state, env1⟩
    · rw [runEpisodes_resetError hr] at hok
      simp at hok
    · rcases hres : (runWhile M args i fuel state env1 0).2 with ⟨sc, env2⟩ | e1 | _
      · have hw : runWhile M args i fuel state env1 0 =
            ((runWhile M args i fuel state env1 0).1, LoopRes.ok sc env2) := by
          rw [← hres]
        rw [runEpisodes_whileOk hr hw] at hok ⊢
        simp only [] at hok
        have hok2 : (runEpisodes M args fuel m (i+1) env2).2 = TestRes.ok := hok
        have hmk := runWhile_markers M args i fuel state env1 0
        have hih := ih (i+1) env2 hok2
        simp only [episodeMarkers] at hmk hih ⊢
        rw [List.range'_succ]
        simp [List.filterMap_cons, List.filterMap_append, markerOf, hmk, hih,
          List.flatMap_cons]
      · have hw : runWhile M args i fuel state env1 0 =
            ((runWhile M args i fuel state env1 0).1, LoopRes.fail e1) := by
          rw [← hres]
        rw [runEpisodes_whileFail hr hw] at hok
        simp at hok
      · have hw : runWhile M args i fuel state env1 0 =
            ((runWhile M args i fuel state env1 0).1, LoopRes.diverge) := by
          rw [← hres]
        rw [runEpisodes_whileDiverge hr hw] at hok
        simp at hok

theorem runEpisodes_close_structure (M : Model S A E ε) (args : Args) (fuel : Nat) :
    ∀ (n i : Nat) (env : E),
      (runEpisodes M args fuel n i env).2 = TestRes.ok →
      ∃ pre, (runEpisodes M args fuel n i env).1 = pre ++ [Ev.close] ∧ Ev.close ∉ pre := by
  intro n
  induction n with
  | zero =>
    intro i env _
    exact ⟨[], by rw [runEpisodes_zero]; rfl, by simp⟩
  | succ m ih =>
    intro i env hok
    rcases hr : M.reset env with e1 | ⟨state, env1⟩
    · rw [runEpisodes_resetError hr] at hok
      simp at hok
    · rcases hres : (runWhile M args i fuel state env1 0).2 with ⟨sc, env2⟩ | e1 | _
      · have hw : runWhile M args i fuel state env1 0 =
            ((runWhile M args i fuel state env1 0).1, LoopRes.ok sc env2) := by
          rw [← hres]
        rw [runEpisodes_whileOk hr hw] at hok ⊢
        simp only [] at hok
        obtain ⟨pre, hpre, hnot⟩ := ih (i+1) env2 hok
        refine ⟨Ev.reset i :: (runWhile M args i fuel state env1 0).1 ++
          Ev.printEp i (ratTrunc sc) :: pre, ?_, ?_⟩
        · rw [hpre]
          simp
        · intro hmem
          rcases List.mem_cons.mp hmem with h | hmem1
          · exact Ev.noConfusion h
          · rcases List.mem_append.mp hmem1 with h | hmem2
            · exact runWhile_no_close M args i fuel state env1 0 h
            · rcases List.mem_cons.mp hmem2 with h | h
              · exact Ev.noConfusion h
              · exact hnot h
      · have hw : runWhile M args i fuel state env1 0 =
            ((runWhile M args i fuel state env1 0).1, LoopRes.fail e1) := by
          rw [← hres]
        rw [runEpisodes_whileFail hr hw] at hok
        simp at hok
      · have hw : runWhile M args i fuel state env1 0 =
            ((runWhile M args i fuel state env1 0).1, LoopRes.diverge) := by
          rw [← hres]
        rw [runEpisodes_whileDiverge hr hw] at hok
        simp at hok

theorem runEpisodes_fail_no_close (M : Model S A E ε) (args : Args) (fuel : Nat) :
    ∀ (n i : Nat) (env : E) (e : ε),
      (runEpisodes M args fuel n i env).2 = TestRes.fail e →
      Ev.close ∉ (runEpisodes M args fuel n i env).1 := by
  intro n
  induction n with
  | zero =>
    intro i env e hfail
    rw [runEpisodes_zero] at hfail
    simp at hfail
  | succ m ih =>
    intro i env e hfail
    rcases hr : M.reset env with e1 | ⟨state, env1⟩
    · rw [runEpisodes_resetError hr]
      simp
    · rcases hres : (runWhile M args i fuel state env1 0).2 with ⟨sc, env2⟩ | e1 | _
      · have hw : runWhile M args i fuel state env1 0 =
            ((runWhile M args i fuel state env1 0).1, LoopRes.ok sc env2) := by
          rw [← hres]
        rw [runEpisodes_whileOk hr hw] at hfail ⊢
        simp only [] at hfail
        intro hmem
        rcases List.mem_cons.mp hmem with h | hmem1
        · exact Ev.noConfusion h
        · rcases List.mem_append.mp hmem1 with h | hmem2
          · exact runWhile_no_close M args i fuel state env1 0 h
          · rcases List.mem_cons.mp hmem2 with h | h
            · exact Ev.noConfusion h
            · exact ih (i+1) env2 e hfail h
      · have hw : runWhile M args i fuel state env1 0 =
            ((runWhile M args i fuel state env1 0).1, LoopRes.fail e1) := by
          rw [← hres]
        rw [runEpisodes_whileFail hr hw]
        intro hmem
        rcases List.mem_cons.mp hmem with h | h
        · exact Ev.noConfusion h
        · exact runWhile_no_close M args i fuel state env1 0 h
      · have hw : runWhile M args i fuel state env1 0 =
            ((runWhile M args i fuel state env1 0).1, LoopRes.diverge) := by
          rw [← hres]
        rw [runEpisodes_whileDiverge hr hw] at hfail
        simp at hfail

theorem runEpisodes_render_iff (M : Model S A E ε) (args : Args) (fuel : Nat) :
    ∀ (n i : Nat) (env : E) (j : Nat),
      (runEpisodes M args fuel n i env).2 = TestRes.ok →
      (Ev.render j ∈ (runEpisodes M args fuel n i env).1 ↔
        (i ≤ j ∧ j < i + n ∧ renderCond args j = true)) := by
  intro n
  induction n with
  | zero =>
    intro i env j _
    rw [runEpisodes_zero]
    constructor
    · intro hmem
      exact Ev.noConfusion (List.mem_singleton.mp hmem)
    · rintro ⟨h1, h2, _⟩
      omega
  | succ m ih =>
    intro i env j hok
    rcases hr : M.reset env with e1 | ⟨state, env1⟩
    · rw [runEpisodes_resetError hr] at hok
      simp at hok
    · rcases hres : (runWhile M args i fuel state env1 0).2 with ⟨sc, env2⟩ | e1 | _
      · have hw : runWhile M args i fuel state env1 0 =
            ((runWhile M args i fuel state env1 0).1, LoopRes.ok sc env2) := by
          rw [← hres]
        rw [runEpisodes_whileOk hr hw] at hok ⊢
        simp only [] at hok
        have hihiff := ih (i+1) env2 j hok
        constructor
        · intro hmem
          rcases List.mem_cons.mp hmem with h | hmem1
          · exact Ev.noConfusion h
          · rcases List.mem_append.mp hmem1 with h | hmem2
            · rcases runWhile_events M args i fuel state env1 0 _ h with h' | ⟨hc, h'⟩
              · exact Ev.noConfusion h'
              · have hji : j = i := by injection h'
                subst hji
                exact ⟨le_refl j, by omega, hc⟩
            · rcases List.mem_cons.mp hmem2 with h | h
              · exact Ev.noConfusion h
              · obtain ⟨h1, h2, h3⟩ := hihiff.mp h
                exact ⟨by omega, by omega, h3⟩
        · rintro ⟨hij, hjn, hc⟩
          by_cases hji : j = i
          · subst hji
            obtain ⟨k, hk⟩ := runWhile_fuel_pos_of_ok M args j fuel state env1 0 sc env2 hw
            have hmem : Ev.render j ∈ (runWhile M args j fuel state env1 0).1 := by
              rw [hk]
              exact runWhile_render_mem M args j k state env1 0 hc
            exact List.mem_cons.mpr (Or.inr (List.mem_append.mpr (Or.inl hmem)))
          · have h1 : i + 1 ≤ j := by omega
            have hmem : Ev.render j ∈ (runEpisodes M args fuel m (i+1) env2).1 :=
              hihiff.mpr ⟨h1, by omega, hc⟩
            exact List.mem_cons.mpr (Or.inr (List.mem_append.mpr
              (Or.inr (List.mem_cons.mpr (Or.inr hmem)))))
      · have hw : runWhile M args i fuel state env1 0 =
            ((runWhile M args i fuel state env1 0).1, LoopRes.fail e1) := by
          rw [← hres]
        rw [runEpisodes_whileFail hr hw] at hok
        simp at hok
      · have hw : runWhile M args i fuel state env1 0 =
            ((runWhile M args i fuel state env1 0).1, LoopRes.diverge) := by
          rw [← hres]
        rw [runEpisodes_whileDiverge hr hw] at hok
        simp at hok

/-! The claims. -/

/-- C1: for every configured episode count N ≥ 0, a completed `test()` run
performs exactly N episodes: the subsequence of episode milestones in its trace
is exactly reset 0, print 0, reset 1, print 1, …, reset (N−1), print (N−1) —
one environment reset opening each episode and exactly one printed summary line
(with that episode's index) closing it, in order, and nothing else. -/
theorem C1_exactly_N_episodes (M : Model S A E ε) (args : Args)
    (fuel : Nat) (env0 : E) (h : (testAgent M args fuel env0).2 = TestRes.ok) :
    episodeMarkers (testAgent M args fuel env0).1 =
      (List.range args.episode_num).flatMap (fun i => [Mk.reset i, Mk.printed i]) := by
  rw [testAgent, List.range_eq_range']
  exact runEpisodes_markers M args fuel args.episode_num 0 env0 h

/-- Witness for C1: the stub environment with reward 1, two episodes. -/
theorem C1_exactly_N_episodes_witness :
    (testAgent (stubModel 1) ⟨2, false, 0⟩ 1 ()).2 = TestRes.ok ∧
    episodeMarkers (testAgent (stubModel 1) ⟨2, false, 0⟩ 1 ()).1 =
      (List.range 2).flatMap (fun i => [Mk.reset i, Mk.printed i]) :=
  ⟨by decide, C1_exactly_N_episodes (stubModel 1) ⟨2, false, 0⟩ 1 () (by decide)⟩

/-- C3: during a completed `test()` run, `render()` is invoked in episode `i`
iff the render flag is set and `i ≥ render_after` (and episode `i` exists,
`i < episode_num`); render is never invoked otherwise. -/
theorem C3_render_iff (M : Model S A E ε) (args : Args) (fuel : Nat) (env0 : E)
    (i : Nat) (h : (testAgent M args fuel env0).2 = TestRes.ok) :
    Ev.render i ∈ (testAgent M args fuel env0).1 ↔
      (args.render = true ∧ (i : Int) ≥ args.render_after ∧ i < args.episode_num) := by
  rw [testAgent]
  rw [runEpisodes_render_iff M args fuel args.episode_num 0 env0 i h]
  simp only [renderCond, Bool.and_eq_true, decide_eq_true_eq, Nat.zero_add]
  constructor
  · rintro ⟨_, h2, hr, hge⟩
    exact ⟨hr, hge, h2⟩
  · rintro ⟨hr, hge, hlt⟩
    exact ⟨Nat.zero_le i, hlt, hr, hge⟩

/-- Witness for C3: render enabled, threshold 0, one episode, index 0. -/
theorem C3_render_iff_witness :
    (testAgent (stubModel 1) ⟨1, true, 0⟩ 1 ()).2 = TestRes.ok ∧
    (Ev.render 0 ∈ (testAgent (stubModel 1) ⟨1, true, 0⟩ 1 ()).1 ↔
      ((true : Bool) = true ∧ ((0 : Nat) : Int) ≥ (0 : Int) ∧ (0 : Nat) < 1)) :=
  ⟨by decide, C3_render_iff (stubModel 1) ⟨1, true, 0⟩ 1 () 0 (by decide)⟩

/-- C4: a completed `test()` run calls the environment's `close()` exactly
once, and that call is the very last event of the run — in particular it
happens after the final step of the last episode. -/
theorem C4_close_once_after_last (M : Model S A E ε) (args : Args) (fuel : Nat)
    (env0 : E) (h : (testAgent M args fuel env0).2 = TestRes.ok) :
    ∃ pre, (testAgent M args fuel env0).1 = pre ++ [Ev.close] ∧ Ev.close ∉ pre :=
  runEpisodes_close_structure M args fuel args.episode_num 0 env0 h

/-- Witness for C4: the stub environment, one episode. -/
theorem C4_close_once_after_last_witness :
    (testAgent (stubModel 1) ⟨1, false, 0⟩ 1 ()).2 = TestRes.ok ∧
    ∃ pre, (testAgent (stubModel 1) ⟨1, false, 0⟩ 1 ()).1 = pre ++ [Ev.close] ∧
      Ev.close ∉ pre :=
  ⟨by decide, C4_close_once_after_last (stubModel 1) ⟨1, false, 0⟩ 1 () (by decide)⟩

/-- C9: when an environment reset, render, step, or action selection raises
mid-episode, `test()` propagates the error to its caller (the run's outcome is
that failure) and the environment's `close()` is never called on that path. -/
theorem C9_error_skips_close (M : Model S A E ε) (args : Args) (fuel : Nat)
    (env0 : E) (e : ε) (h : (testAgent M args fuel env0).2 = TestRes.fail e) :
    Ev.close ∉ (testAgent M args fuel env0).1 :=
  runEpisodes_fail_no_close M args fuel args.episode_num 0 env0 e h

/-- Witness for C9: a stub whose step raises; the error propagates and no
close event appears. -/
theorem C9_error_skips_close_witness :
    (testAgent stubFailStep ⟨1, false, 0⟩ 1 ()).2 = TestRes.fail () ∧
    Ev.close ∉ (testAgent stubFailStep ⟨1, false, 0⟩ 1 ()).1 :=
  ⟨by decide, C9_error_skips_close stubFailStep ⟨1, false, 0⟩ 1 () () (by decide)⟩

/-- C2 counterexample: with the stub environment whose first step returns
`done = true` and fixed scalar reward r = 1/2 (`halfExample`), the score
reported in the episode's
printed summary line is 0 (the `%d` formatting truncates), which is not equal
to r — so the printed score does not equal r exactly for every scalar r. -/
theorem C2_counterexample :
    Ev.printEp 0 0 ∈ (testAgent (stubModel halfExample) ⟨1, false, 0⟩ 1 ()).1 ∧
    ¬ (((0 : Int) : ℚ) = halfExample) := by
  constructor
  · have h0 : (testAgent (stubModel halfExample) ⟨1, false, 0⟩ 1 ()).1 =
        [Ev.reset 0, Ev.step, Ev.printEp 0 (ratTrunc (0 + halfExample)), Ev.close] := rfl
    rw [h0, zero_add]
    have ht : ratTrunc halfExample = 0 := by decide
    rw [ht]
    simp
  · intro hcontra
    have h1 : ((0 : Int) : ℚ).num = halfExample.num := congrArg Rat.num hcontra
    rw [Rat.num_intCast] at h1
    exact absurd h1 (by decide)

/-- C2 amended: for the stub environment returning `done = true` on the first
step with fixed reward r, the episode's printed summary line reports the
integer truncation (toward zero) of r — the accumulated score 0 + r = r passed
through `%d` — and truncation is the identity on integers, so the printed
score equals r exactly whenever r is an integer. -/
theorem C2_printed_score_is_truncation (r : ℚ) (n : Int) :
    (testAgent (stubModel r) ⟨1, false, 0⟩ 1 ()).1 =
      [Ev.reset 0, Ev.step, Ev.printEp 0 (ratTrunc r), Ev.close] ∧
    ratTrunc ((n : ℚ)) = n := by
  constructor
  · have h0 : (testAgent (stubModel r) ⟨1, false, 0⟩ 1 ()).1 =
        [Ev.reset 0, Ev.step, Ev.printEp 0 (ratTrunc (0 + r)), Ev.close] := rfl
    rw [h0, zero_add]
  · unfold ratTrunc
    rw [Rat.num_intCast, Rat.den_intCast]
    by_cases hn : n < 0
    · simp only [hn, if_true, Nat.div_one]
      omega
    · simp only [hn, if_false, Nat.div_one]
      omega

/-- C5: `save_params` writes the parameters to the path
`"./save/" + name + "_" + sha[:7] + "_ep_" + episode + ".pt"`, where the
revision component `sha[:7]` has exactly 7 characters (a git head sha has 40). -/
theorem C5_save_path_format (name sha : String) (params : P) (n_episode : Int)
    (fs : FS P) (mkdirOk : Bool)
    (hok : fs.saveDirExists = true ∨ mkdirOk = true) (hsha : 7 ≤ sha.length) :
    (save_params (some sha) mkdirOk fs name params n_episode).2 =
      Except.ok ("./save/" ++ name ++ "_" ++ shortSha sha ++ "_ep_" ++
        toString n_episode ++ ".pt") ∧
    (shortSha sha).length = 7 ∧
    ((save_params (some sha) mkdirOk fs name params n_episode).1).files.lookup
        (savePath name sha n_episode) = some params := by
  have hcond : ¬(fs.saveDirExists = false ∧ mkdirOk = false) := by
    rcases hok with h | h <;> simp [h]
  refine ⟨?_, ?_, ?_⟩
  · simp [save_params, hcond, savePath]
  · show (sha.data.take 7).length = 7
    rw [List.length_take]
    have h2 : 7 ≤ sha.data.length := hsha
    omega
  · simp [save_params, hcond, writeFile, List.lookup]

/-- Witness for C5: a 40-character sha, existing save directory. -/
theorem C5_save_path_format_witness :
    (((⟨true, []⟩ : FS Nat).saveDirExists = true ∨ (true : Bool) = true) ∧
      7 ≤ shaExample.length) ∧
    ((save_params (some shaExample) true (⟨true, []⟩ : FS Nat) "dqn" 0 3).2 =
        Except.ok ("./save/" ++ "dqn" ++ "_" ++ shortSha shaExample ++ "_ep_" ++
          toString (3 : Int) ++ ".pt") ∧
      (shortSha shaExample).length = 7 ∧
      ((save_params (some shaExample) true (⟨true, []⟩ : FS Nat) "dqn" 0 3).1).files.lookup
          (savePath "dqn" shaExample 3) = some 0) :=
  ⟨⟨Or.inl rfl, by decide⟩,
    C5_save_path_format "dqn" shaExample 0 3 ⟨true, []⟩ true (Or.inl rfl) (by decide)⟩

/-- C6: with no pre-existing save directory, a save with a discoverable
repository creates the directory and exactly one file (at the computed path)
appears; if the directory cannot be created, `save_params` aborts with the
I/O error instead of continuing. -/
theorem C6_save_dir_creation (name : String) (params : P) (n_episode : Int)
    (sha : String) (git : Option String) (files0 : List (String × P)) :
    ((save_params (some sha) true (⟨false, []⟩ : FS P) name params n_episode).1 =
        ⟨true, [(savePath name sha n_episode, params)]⟩ ∧
      (save_params (some sha) true (⟨false, []⟩ : FS P) name params n_episode).2 =
        Except.ok (savePath name sha n_episode)) ∧
    (save_params git false (⟨false, files0⟩ : FS P) name params n_episode).2 =
      Except.error SaveErr.mkdirFailed := by
  refine ⟨⟨?_, ?_⟩, ?_⟩ <;> simp [save_params, writeFile]

/-- C7: when no enclosing source-control repository is discoverable,
`save_params` fails with an error (it propagates — there is no fallback
revision scheme) and writes no parameter file. -/
theorem C7_no_repo_fails (mkdirOk : Bool) (fs : FS P) (name : String)
    (params : P) (n_episode : Int) :
    ((save_params none mkdirOk fs name params n_episode).1).files = fs.files ∧
    ∃ err, (save_params none mkdirOk fs name params n_episode).2 =
      Except.error err := by
  unfold save_params
  split
  · exact ⟨rfl, SaveErr.mkdirFailed, rfl⟩
  · exact ⟨rfl, SaveErr.noRepo, rfl⟩

/-- C8: two saves with the same name, revision and episode number compute the
same path; the second succeeds (no error) and overwrites the first file's
contents. -/
theorem C8_same_path_overwrites (name sha : String) (params1 params2 : P)
    (n_episode : Int) (fs : FS P) (mk1 mk2 : Bool)
    (hok : fs.saveDirExists = true ∨ mk1 = true) :
    (save_params (some sha) mk1 fs name params1 n_episode).2 =
      Except.ok (savePath name sha n_episode) ∧
    (save_params (some sha) mk2
        (save_params (some sha) mk1 fs name params1 n_episode).1
        name params2 n_episode).2 = Except.ok (savePath name sha n_episode) ∧
    ((save_params (some sha) mk2
        (save_params (some sha) mk1 fs name params1 n_episode).1
        name params2 n_episode).1).files.lookup (savePath name sha n_episode) =
      some params2 := by
  obtain ⟨d, files0⟩ := fs
  rcases hok with h | h
  · have hd : d = true := h
    subst hd
    refine ⟨?_, ?_, ?_⟩ <;> simp [save_params, writeFile, List.lookup]
  · subst h
    refine ⟨?_, ?_, ?_⟩ <;> simp [save_params, writeFile, List.lookup]

/-- Witness for C8: concrete double save. -/
theorem C8_same_path_overwrites_witness :
    ((⟨true, []⟩ : FS Nat).saveDirExists = true ∨ (true : Bool) = true) ∧
    ((save_params (some "abcdefgh") true (⟨true, []⟩ : FS Nat) "m" 0 5).2 =
      Except.ok (savePath "m" "abcdefgh" 5) ∧
    (save_params (some "abcdefgh") true
        (save_params (some "abcdefgh") true (⟨true, []⟩ : FS Nat) "m" 0 5).1
        "m" 1 5).2 = Except.ok (savePath "m" "abcdefgh" 5) ∧
    ((save_params (some "abcdefgh") true
        (save_params (some "abcdefgh") true (⟨true, []⟩ : FS Nat) "m" 0 5).1
        "m" 1 5).1).files.lookup (savePath "m" "abcdefgh" 5) = some 1) :=
  ⟨Or.inl rfl,
    C8_same_path_overwrites "m" "abcdefgh" 0 1 5 ⟨true, []⟩ true true (Or.inl rfl)⟩

/-- C10: the constructor stores `observation_space.shape[0]` as `state_dim`,
`action_space.shape[0]` as `action_dim`, and only index 0 of the action
space's `low`/`high` bound vectors as `action_low`/`action_high` — the result
does not depend on the tails of any of these, nor on the observation space's
own bounds. -/
theorem C10_init_first_components (sd ad : Nat) (lo hi : ℚ)
    (sdTail adTail : List Nat) (loTail hiTail : List ℚ)
    (obsLow obsHigh : List ℚ) :
    initAttrs ⟨⟨sd :: sdTail, obsLow, obsHigh⟩,
               ⟨ad :: adTail, lo :: loTail, hi :: hiTail⟩⟩ =
      some ⟨sd, ad, lo, hi⟩ := rfl
